import Mathlib

/-!
Verification of the IRIS visual anomaly detection core (src/src/ui/App.tsx,
UploadLoopPlayer, and src/src/ui/ai.ts) against its specification.

The mutable refs of the React component are collected into an explicit state
record; one invocation of the `analyze` frame callback (in the branch where a
previous frame exists) becomes a pure step function, as does one invocation of
the embedding detector's `onScore` callback and the `resetForLoop` routine.
Pixel values and scores are modelled with exact rationals; the cosine-distance
scorer, which uses a square root, is modelled over the reals.
-/

namespace IRIS

/-- Smoothed bounding box held in `boxEmaRef` (App.tsx): overlay-space
x, y, w, h, integer pixels (`Math.floor`/`Math.ceil`/`Math.round` results). -/
structure Box where
  x : ℤ
  y : ℤ
  w : ℤ
  h : ℤ
deriving Repr, DecidableEq

/-- The mutable refs of `UploadLoopPlayer` that the analysis loop, the
embedding callback and `resetForLoop` read and write:
`warmupRef`, `scoreBufRef`, `lastFireRef`, `sustainRef`, `activeRef`,
`holdFramesRef`, `boxEmaRef`, `recentActivationsRef`, `recentScoresRef`,
`prevActiveRef`, the `sensitivity` state and the `detectCount` state. -/
structure AnalyzeState where
  warmup : ℕ
  scoreBuf : List ℚ
  lastFire : ℤ
  sustain : ℤ
  active : Bool
  hold : ℤ
  boxEma : Option Box
  recentActivations : List ℤ
  recentScores : List (ℤ × ℚ)
  prevActive : Bool
  sensitivity : ℚ
  detectCount : ℕ
deriving Repr, DecidableEq

/-- Initial values of the refs and state of `UploadLoopPlayer`
(`sensitivity` starts at 0.20). -/
def initState : AnalyzeState :=
  { warmup := 0, scoreBuf := [], lastFire := 0, sustain := 0, active := false,
    hold := 0, boxEma := none, recentActivations := [], recentScores := [],
    prevActive := false, sensitivity := 0.20, detectCount := 0 }

/-- Raw saliency score of one tick (App.tsx `analyze`):
`norm = diff / (w * h * 3 * 255)`, `score = Math.min(1, Math.max(0, norm * 4))`,
where `diff` is the global sum of absolute per-channel differences between the
current and previous downsampled frames. -/
def saliencyScore (diff w h : ℕ) : ℚ :=
  min 1 (max 0 ((diff : ℚ) / ((w : ℚ) * (h : ℚ) * 3 * 255) * 4))

/-- `scoreBufRef.current.push(score); if (length > 8) shift()` — append the new
raw score at the end and evict the oldest (front) entry once the buffer holds
more than 8 entries. -/
def pushCap8 (buf : List ℚ) (s : ℚ) : List ℚ :=
  let b := buf ++ [s]
  if 8 < b.length then b.tail else b

/-- `buf.reduce((a, b) => a + b, 0) / buf.length` — arithmetic mean of the
rolling score buffer ("smoothed score"). -/
def bufAvg (buf : List ℚ) : ℚ :=
  buf.sum / (buf.length : ℚ)

/-- ActivationStateMachine: one tick of the hysteresis / sustain / hold update
(App.tsx `analyze`, the block below `const entryThr = sensitivity`).  Takes the
current entry threshold, the smoothed score `avg` and the current
`(sustain, active, hold)` and returns the updated triple. -/
def hysteresisStep (sens avg : ℚ) (sustain : ℤ) (active : Bool) (hold : ℤ) :
    ℤ × Bool × ℤ :=
  let entryThr := sens
  let exitThr := max 0 (sens - 0.10)
  let sustain1 :=
    if entryThr < avg then min 10 (sustain + 1)
    else if avg < exitThr then max 0 (sustain - 1)
    else sustain
  let step1 : Bool × ℤ :=
    if active = false ∧ 3 ≤ sustain1 then (true, 8) else (active, hold)
  let step2 : Bool × ℤ :=
    if step1.1 = true ∧ sustain1 = 0 then
      (if 0 < step1.2 then (step1.1, step1.2 - 1) else (false, step1.2))
    else step1
  (sustain1, step2.1, step2.2)

/-- Runs the activation state machine over a list of smoothed samples
starting from the state `(sustain, active, hold)`. -/
def hysteresisRun (sens : ℚ) : List ℚ → ℤ × Bool × ℤ → ℤ × Bool × ℤ
  | [], s => s
  | a :: l, s => hysteresisRun sens l (hysteresisStep sens a s.1 s.2.1 s.2.2)

/-- LocalizationTracker update (App.tsx `analyze`, overlay block):
`if (!boxEmaRef.current) boxEmaRef.current = {x: rx, y: ry, w: rw, h: rh}`
else each coordinate becomes `Math.round(alpha * obs + (1 - alpha) * prev)`
with `alpha = 0.35`.  Lean's `round` is `⌊x + 1/2⌋`, which agrees with
JavaScript's `Math.round`. -/
def boxEmaUpdate (prev : Option Box) (rx ry rw rh : ℤ) : Box :=
  let alpha : ℚ := 0.35
  match prev with
  | none => { x := rx, y := ry, w := rw, h := rh }
  | some p =>
      { x := round (alpha * (rx : ℚ) + (1 - alpha) * (p.x : ℚ))
        y := round (alpha * (ry : ℚ) + (1 - alpha) * (p.y : ℚ))
        w := round (alpha * (rw : ℚ) + (1 - alpha) * (p.w : ℚ))
        h := round (alpha * (rh : ℚ) + (1 - alpha) * (p.h : ℚ)) }

/-- AdaptiveThresholdController (App.tsx `analyze`, `if (autoTune)` block):
keeps only activation edges of the last 10 s
(`filter((t) => nowMs - t <= windowMs)`), computes
`ratePerSec = count / (windowMs / 1000)`, nudges the sensitivity by
`s - (ratePerSec - target) * k` with `target = 0.2`, `k = 0.0025`, clamps it
to `[0.15, 0.6]` and applies it only when `|s - sensitivity| > 0.0005`.
Returns the (possibly unchanged) sensitivity and the pruned edge list. -/
def autoTuneStep (sens : ℚ) (recentActivations : List ℤ) (now : ℤ) :
    ℚ × List ℤ :=
  let recAct := recentActivations.filter (fun t => now - t ≤ 10000)
  let ratePerSec : ℚ := (recAct.length : ℚ) / 10
  let target : ℚ := 0.2
  let err := ratePerSec - target
  let k : ℚ := 0.0025
  let s := max 0.15 (min 0.6 (sens - err * k))
  (if 0.0005 < |s - sens| then s else sens, recAct)

/-- Per-tick inputs of the frame-diff path of `analyze`: the global frame
difference and downsampled dimensions, the tick's wall-clock time `now`
(`Date.now()`), the maximum-saliency block data, the overlay canvas size, and
the component's `alertsEnabled`, `onIrregularity` (presence of the callback)
and `autoTune` settings. -/
structure FrameInput where
  diff : ℕ
  w : ℕ
  h : ℕ
  now : ℤ
  maxBlockSum : ℕ
  maxBlockX : ℕ
  maxBlockY : ℕ
  ovW : ℕ
  ovH : ℕ
  alertsEnabled : Bool
  hasCallback : Bool
  autoTune : Bool
deriving Repr, DecidableEq

/-- One invocation of `UploadLoopPlayer.analyze` (App.tsx) in the branch where
a previous frame exists, as a pure function of the ref state and the tick's
inputs.  Follows the source order: warm-up early return; score computation and
rolling-buffer smoothing; 60 s recent-score window; hysteresis / sustain /
hold update; box EMA while active; adaptive-sensitivity update; rising-edge
recording; rate-limited detection.  Within the tick every read of
`sensitivity` sees the closure's value `st.sensitivity` (the `setSensitivity`
call only takes effect afterwards).  Returns the new state and whether a
`detection` event was published this tick. -/
def analyzeStep (st : AnalyzeState) (inp : FrameInput) : AnalyzeState × Bool :=
  if st.warmup < 6 then ({ st with warmup := st.warmup + 1 }, false)
  else
    let score := saliencyScore inp.diff inp.w inp.h
    let sens := st.sensitivity
    let buf := pushCap8 st.scoreBuf score
    let avg := bufAvg buf
    let recScores :=
      List.dropWhile (fun p => p.1 < inp.now - 60000)
        (st.recentScores ++ [(inp.now, avg)])
    let hys := hysteresisStep sens avg st.sustain st.active st.hold
    let sustain1 := hys.1
    let act1 := hys.2.1
    let hold1 := hys.2.2
    let box1 :=
      if act1 = true ∧ 0 < inp.maxBlockSum then
        some (boxEmaUpdate st.boxEma
          ⌊(inp.maxBlockX : ℚ) * ((inp.ovW : ℚ) / (inp.w : ℚ))⌋
          ⌊(inp.maxBlockY : ℚ) * ((inp.ovH : ℚ) / (inp.h : ℚ))⌋
          ⌈8 * ((inp.ovW : ℚ) / (inp.w : ℚ))⌉
          ⌈8 * ((inp.ovH : ℚ) / (inp.h : ℚ))⌉)
      else st.boxEma
    let tuned :=
      if inp.autoTune = true then autoTuneStep sens st.recentActivations inp.now
      else (sens, st.recentActivations)
    let sens1 := tuned.1
    let recAct1 := tuned.2
    let recAct2 :=
      if st.prevActive = false ∧ act1 = true then
        let l := recAct1 ++ [inp.now]
        if 120 < l.length then l.tail else l
      else recAct1
    let st1 : AnalyzeState :=
      { warmup := st.warmup, scoreBuf := buf, lastFire := st.lastFire,
        sustain := sustain1, active := act1, hold := hold1, boxEma := box1,
        recentActivations := recAct2, recentScores := recScores,
        prevActive := act1, sensitivity := sens1,
        detectCount := st.detectCount }
    let fired := decide (inp.alertsEnabled = true ∧ inp.hasCallback = true ∧
      act1 = true ∧ sens + 0.005 < avg ∧ 5000 < inp.now - st.lastFire)
    (if fired = true then
      { st1 with lastFire := inp.now, detectCount := st.detectCount + 1 }
     else st1, fired)

/-- One invocation of the embedding detector's `onScore` callback installed by
`UploadLoopPlayer` (App.tsx): shared warm-up early return, push into the same
rolling buffer `scoreBufRef`, smoothed average, and detection with a higher
margin (`+ 0.01`) and a longer cooldown (8000 ms) against the shared
`lastFireRef`.  `now` models `Date.now()` at the callback. -/
def onScoreStep (st : AnalyzeState) (score : ℚ) (now : ℤ)
    (alertsEnabled hasCallback : Bool) : AnalyzeState × Bool :=
  if st.warmup < 6 then ({ st with warmup := st.warmup + 1 }, false)
  else
    let buf := pushCap8 st.scoreBuf score
    let avg := bufAvg buf
    let st1 := { st with scoreBuf := buf }
    let fired := decide (alertsEnabled = true ∧ hasCallback = true ∧
      st.sensitivity + 0.01 < avg ∧ 8000 < now - st.lastFire)
    (if fired = true then
      { st1 with lastFire := now, detectCount := st.detectCount + 1 }
     else st1, fired)

/-- An event hitting the shared `UploadLoopPlayer` state: either one frame-diff
tick of `analyze` or one embedding `onScore` callback. -/
inductive PipeEvent where
  | frame (inp : FrameInput)
  | embed (score : ℚ) (now : ℤ) (alertsEnabled hasCallback : Bool)
deriving Repr, DecidableEq

/-- Whether the event belongs to the frame-diff path. -/
def PipeEvent.isFrameDiff : PipeEvent → Bool
  | .frame _ => true
  | .embed _ _ _ _ => false

/-- Wall-clock time of the event. -/
def PipeEvent.time : PipeEvent → ℤ
  | .frame inp => inp.now
  | .embed _ now _ _ => now

/-- Dispatches one event to the step function of its path. -/
def pipeStep (st : AnalyzeState) : PipeEvent → AnalyzeState × Bool
  | .frame inp => analyzeStep st inp
  | .embed s now a hcb => onScoreStep st s now a hcb

/-- Runs a sequence of events and collects the published `detection` events as
`(isFrameDiff, timestamp)` pairs, in order. -/
def runPipe (st : AnalyzeState) : List PipeEvent → AnalyzeState × List (Bool × ℤ)
  | [] => (st, [])
  | e :: es =>
    let r := pipeStep st e
    let rest := runPipe r.1 es
    (rest.1, (if r.2 = true then [(e.isFrameDiff, e.time)] else []) ++ rest.2)

/-- Cooldown (ms) that must have elapsed since `lastFireRef` for a detection on
the given path to fire: 5000 on the frame-diff path, 8000 on the embedding
path. -/
def fireCooldown (isFrameDiff : Bool) : ℤ :=
  if isFrameDiff = true then 5000 else 8000

/-- `UploadLoopPlayer.resetForLoop` (App.tsx): clears the warm-up counter, the
score buffer, the detection cooldown timestamp, the sustain counter, the
active flag, the hold counter, the box EMA, the activation-edge window, the
recent-score window and the detection counter.  (`prevActiveRef` and the
`sensitivity` state are not touched by the source.) -/
def resetForLoop (st : AnalyzeState) : AnalyzeState :=
  { warmup := 0, scoreBuf := [], lastFire := 0, sustain := 0, active := false,
    hold := 0, boxEma := none, recentActivations := [], recentScores := [],
    prevActive := st.prevActive, sensitivity := st.sensitivity,
    detectCount := 0 }

/-- State owned by one embedding detector instance (ai.ts
`createVideoAnomalyDetector` closure): the `running` flag and the pending
`setTimeout` handle. -/
structure DetectorState where
  running : Bool
  timer : Option ℤ
deriving Repr, DecidableEq

/-- The interface returned by `createVideoAnomalyDetector` (ai.ts):
`start` and `stop` act on the detector's closure state, `isReady` reports
`!!model`. -/
structure AnomalyDetector where
  start : DetectorState → DetectorState
  stop : DetectorState → DetectorState
  isReady : Bool

/-- Result of the one-time fallible TFJS import and `mobilenet.load` awaited at
the top of `createVideoAnomalyDetector` (ai.ts). -/
inductive ModelHandle where
  | mobilenet
deriving Repr, DecidableEq

/-- The awaited model load of ai.ts, which either yields a model or throws
(network or model unavailable); the boolean says whether the load succeeds. -/
def loadModel : Bool → Except String ModelHandle
  | true => .ok .mobilenet
  | false => .error "load failed"

/-- `createVideoAnomalyDetector` (ai.ts): the `try`/`catch` around the model
load becomes a `match` on the load result.  On failure it returns the fallback
detector whose `start`/`stop` are no-ops and whose `isReady` is constantly
`false`; it does not re-throw, so the caller always receives a detector.  On
success `start` sets `running` if it was clear, `stop` clears `running` and
the timer. -/
def createVideoAnomalyDetector (loadSucceeds : Bool) : AnomalyDetector :=
  match loadModel loadSucceeds with
  | .error _ =>
      { start := fun s => s
        stop := fun s => s
        isReady := false }
  | .ok _ =>
      { start := fun s =>
          if s.running = true then s else { s with running := true }
        stop := fun _ => { running := false, timer := none }
        isReady := true }

/-- `cosineDistance` helper sums from ai.ts: `dot`, `na` and `nb` are all
instances of this pairwise product sum. -/
noncomputable def dotProd (a b : List ℝ) : ℝ :=
  (List.zipWith (fun x y => x * y) a b).sum

/-- `cosineDistance` (ai.ts): `1 - dot / (Math.sqrt(na) * Math.sqrt(nb) + 1e-8)`
where `dot`, `na`, `nb` are the pairwise product sums of the two embedding
vectors.  The emitted embedding score is this value, with no clamping. -/
noncomputable def cosineDistance (a b : List ℝ) : ℝ :=
  1 - dotProd a b / (Real.sqrt (dotProd a a) * Real.sqrt (dotProd b b) + 1e-8)

/-- Embedding scorer emission step (ai.ts `step`): the first embedding seeds
the running mean and scores 0; later embeddings score the cosine distance to
the running mean and update the mean with learning rate 0.02. -/
noncomputable def embedEmit (meanVector : Option (List ℝ)) (emb : List ℝ) :
    ℝ × List ℝ :=
  match meanVector with
  | none => (0, emb)
  | some m =>
      let lr : ℝ := 0.02
      (cosineDistance emb m,
        List.zipWith (fun mi ei => (1 - lr) * mi + lr * ei) m emb)

/-! Theorems. -/

/-- Claim C7: Reset immediately forces the initial activation state
`active = false, sustain = 0, hold = 0` and clears all rolling buffers — the
score buffer, the recent-activation window, the recent-score window, the box
EMA and the warm-up counter (and the detection cooldown timestamp) — for every
prior state. -/
theorem reset_forces_initial_state (st : AnalyzeState) :
    (resetForLoop st).active = false ∧ (resetForLoop st).sustain = 0 ∧
    (resetForLoop st).hold = 0 ∧ (resetForLoop st).scoreBuf = [] ∧
    (resetForLoop st).recentActivations = [] ∧
    (resetForLoop st).recentScores = [] ∧ (resetForLoop st).boxEma = none ∧
    (resetForLoop st).warmup = 0 ∧ (resetForLoop st).lastFire = 0 := by
  refine ⟨rfl, rfl, rfl, rfl, rfl, rfl, rfl, rfl, rfl⟩

/-- Claim C2 (amended part): every saliency score — the global frame
difference normalized by `w * h * 3 * 255`, scaled by the gain 4.0 and
clamped — lies in `[0, 1]`. -/
theorem saliency_score_in_unit_interval (diff w h : ℕ) :
    0 ≤ saliencyScore diff w h ∧ saliencyScore diff w h ≤ 1 := by
  unfold saliencyScore
  exact ⟨le_min zero_le_one (le_max_left 0 _), min_le_left _ _⟩

/-- Claim C2 (counterexample): the embedding path's cosine-distance score is
not clamped to `[0, 1]`: for the one-dimensional embeddings `[1]` and `[-1]`
(negative dot product) the emitted score exceeds 1, refuting
"for all scores s from either path, 0 ≤ s ≤ 1". -/
theorem cosine_distance_exceeds_one : 1 < cosineDistance [1] [-1] := by
  have h1 : dotProd [1] [-1] = -1 := by simp [dotProd]
  have h2 : dotProd [(1 : ℝ)] [1] = 1 := by simp [dotProd]
  have h3 : dotProd [(-1 : ℝ)] [-1] = 1 := by simp [dotProd]
  unfold cosineDistance
  rw [h1, h2, h3, Real.sqrt_one]
  norm_num

/-- Claim C8: when the embedding model load fails,
`createVideoAnomalyDetector` does not propagate the error; it returns a
detector whose `isReady` is constantly `false` and whose `start` and `stop`
leave the detector state untouched (no-ops).  On a successful load `isReady`
is `true`, so the degraded report is tied to the failed load. -/
theorem detector_load_failure_degrades :
    (createVideoAnomalyDetector false).isReady = false
    ∧ (∀ s : DetectorState, (createVideoAnomalyDetector false).start s = s)
    ∧ (∀ s : DetectorState, (createVideoAnomalyDetector false).stop s = s)
    ∧ (createVideoAnomalyDetector true).isReady = true := by
  exact ⟨rfl, fun _ => rfl, fun _ => rfl, rfl⟩

/-- Claim C4: starting active with `hold = 8` and `sustain = 1`, feeding
below-exit smoothed samples (0.05 with entry 0.20, exit 0.10): the first tick
drives sustain to 0 and already decrements hold to 7; the machine stays
active through the 8th further tick (hold reaching 0), and the 9th tick —
exactly 8 ticks after sustain first reached 0 — deactivates it.  In general,
while active with `sustain = 0`, a below-exit tick decrements a positive hold
by exactly one and keeps `active`, and with `hold = 0` it transitions to
inactive. -/
theorem deactivation_after_hold_decay :
    (∀ k : ℕ, k ≤ 8 →
      (hysteresisRun 0.20 (List.replicate k 0.05) (1, true, 8)).2.1 = true)
    ∧ hysteresisRun 0.20 (List.replicate 1 0.05) (1, true, 8) = (0, true, 7)
    ∧ hysteresisRun 0.20 (List.replicate 8 0.05) (1, true, 8) = (0, true, 0)
    ∧ hysteresisRun 0.20 (List.replicate 9 0.05) (1, true, 8) = (0, false, 0)
    ∧ (∀ hold : ℤ, 0 < hold →
        hysteresisStep 0.20 0.05 0 true hold = (0, true, hold - 1))
    ∧ hysteresisStep 0.20 0.05 0 true 0 = (0, false, 0) := by
  refine ⟨?_, ?_, ?_, ?_, ?_, ?_⟩
  · intro k hk
    interval_cases k <;>
      norm_num [hysteresisRun, hysteresisStep, List.replicate]
  · norm_num [hysteresisRun, hysteresisStep, List.replicate]
  · norm_num [hysteresisRun, hysteresisStep, List.replicate]
  · norm_num [hysteresisRun, hysteresisStep, List.replicate]
  · intro hold hh
    norm_num [hysteresisStep, hh]
  · norm_num [hysteresisStep]

/-- Witness for C4: with three below-exit ticks the machine is still
active. -/
theorem deactivation_after_hold_decay_witness :
    (hysteresisRun 0.20 (List.replicate 3 0.05) (1, true, 8)).2.1 = true :=
  deactivation_after_hold_decay.1 3 (by norm_num)

/-- Helper: `hysteresisStep` written with the sustain update inlined and the
three outcomes (activate, hold/deactivate, unchanged) made explicit. -/
lemma hysteresisStep_cases (sens a : ℚ) (sus : ℤ) (act : Bool) (hold : ℤ) :
    hysteresisStep sens a sus act hold =
      (if act = false ∧ 3 ≤ (if sens < a then min 10 (sus + 1)
            else if a < max 0 (sens - 0.10) then max 0 (sus - 1) else sus)
       then ((if sens < a then min 10 (sus + 1)
            else if a < max 0 (sens - 0.10) then max 0 (sus - 1) else sus),
            true, 8)
       else if act = true ∧ (if sens < a then min 10 (sus + 1)
            else if a < max 0 (sens - 0.10) then max 0 (sus - 1) else sus) = 0
       then (if 0 < hold
             then ((if sens < a then min 10 (sus + 1)
                  else if a < max 0 (sens - 0.10) then max 0 (sus - 1) else sus),
                  true, hold - 1)
             else ((if sens < a then min 10 (sus + 1)
                  else if a < max 0 (sens - 0.10) then max 0 (sus - 1) else sus),
                  false, hold))
       else ((if sens < a then min 10 (sus + 1)
            else if a < max 0 (sens - 0.10) then max 0 (sus - 1) else sus),
            act, hold)) := by
  simp only [hysteresisStep]
  split_ifs <;> simp_all

/-- Helper: starting from an inactive state with non-negative sustain, the
machine can only report active after at least three samples strictly above the
entry threshold, because sustain rises by at most one per tick and only on
above-entry samples. -/
lemma hysteresisRun_inactive_countP (sens : ℚ) (samples : List ℚ) :
    ∀ sus hold : ℤ, 0 ≤ sus →
      (hysteresisRun sens samples (sus, false, hold)).2.1 = true →
      3 ≤ sus + (samples.countP (fun x => decide (sens < x)) : ℤ) := by
  induction samples with
  | nil =>
    intro sus hold _ h
    simp [hysteresisRun] at h
  | cons a l ih =>
    intro sus hold hsus h
    rw [show hysteresisRun sens (a :: l) (sus, false, hold)
          = hysteresisRun sens l (hysteresisStep sens a sus false hold) from rfl,
        hysteresisStep_cases] at h
    set s1 := (if sens < a then min 10 (sus + 1)
        else if a < max 0 (sens - 0.10) then max 0 (sus - 1) else sus) with hs1
    have hcnt : (((a :: l).countP fun x => decide (sens < x)) : ℤ)
        = ((l.countP fun x => decide (sens < x)) : ℤ)
          + (if sens < a then 1 else 0) := by
      rw [List.countP_cons]
      by_cases hlt : sens < a <;> simp [hlt]
    have h0 : 0 ≤ s1 := by
      rw [hs1]; split_ifs <;> omega
    have hb : s1 ≤ sus + (if sens < a then 1 else 0) := by
      rw [hs1]; split_ifs <;> omega
    have hcl : (0 : ℤ) ≤ (l.countP fun x => decide (sens < x) : ℤ) :=
      Int.ofNat_nonneg _
    rw [hcnt]
    by_cases h3 : 3 ≤ s1
    · split_ifs at hb ⊢ <;> omega
    · rw [if_neg (fun hc => h3 hc.2),
          if_neg (fun hc => Bool.false_ne_true hc.1)] at h
      have := ih s1 hold h0 h
      split_ifs at hb ⊢ <;> omega

/-- Claim C3 (counterexample): with entry 0.20 and exit 0.10, the sample list
`[0.25, 0.25, 0.15, 0.25]` activates the machine from the initial state even
though no three consecutive samples are above the entry threshold (every
window of three consecutive samples contains 0.15, which is in the dead zone,
not above entry).  This refutes "becomes active only after at least 3
consecutive smoothed samples strictly above the entry threshold". -/
theorem activation_without_consecutive_samples :
    (hysteresisRun 0.20 [0.25, 0.25, 0.15, 0.25] (0, false, 0)).2.1 = true
    ∧ ¬ ((0.20 : ℚ) < 0.15)
    ∧ (∀ i : ℕ, i < 2 →
        ¬ ((0.20 : ℚ) < [0.25, 0.25, 0.15, 0.25].getD i 0
           ∧ (0.20 : ℚ) < [0.25, 0.25, 0.15, 0.25].getD (i + 1) 0
           ∧ (0.20 : ℚ) < [0.25, 0.25, 0.15, 0.25].getD (i + 2) 0)) := by
  refine ⟨?_, by norm_num, ?_⟩
  · norm_num [hysteresisRun, hysteresisStep]
  · intro i hi
    interval_cases i <;> norm_num

/-- Claim C3 (amended): from the initial state `(sustain 0, inactive)`, the
machine activates only after at least three samples strictly above the entry
threshold — not necessarily consecutive, because dead-zone samples leave
sustain unchanged; and with entry 0.20, exit 0.10, feeding the smoothed
samples `[0.25, 0.25, 0.25]` makes active become true on the 3rd sample and
not before. -/
theorem activation_requires_three_above_entry :
    ((hysteresisRun 0.20 [0.25] (0, false, 0)).2.1 = false
     ∧ (hysteresisRun 0.20 [0.25, 0.25] (0, false, 0)).2.1 = false
     ∧ (hysteresisRun 0.20 [0.25, 0.25, 0.25] (0, false, 0)).2.1 = true)
    ∧ (∀ (sens : ℚ) (samples : List ℚ),
        (hysteresisRun sens samples (0, false, 0)).2.1 = true →
        3 ≤ (samples.countP (fun x => decide (sens < x)) : ℤ)) := by
  constructor
  · refine ⟨?_, ?_, ?_⟩ <;> norm_num [hysteresisRun, hysteresisStep]
  · intro sens samples h
    have := hysteresisRun_inactive_countP sens samples 0 0 le_rfl h
    omega

/-- Witness for C3: applying the amended theorem at the concrete samples
`[0.25, 0.25, 0.25]` with entry 0.20. -/
theorem activation_requires_three_above_entry_witness :
    3 ≤ (([0.25, 0.25, 0.25].countP
        (fun x => decide ((0.20 : ℚ) < x)) : ℤ)) :=
  activation_requires_three_above_entry.2 0.20 [0.25, 0.25, 0.25]
    (by norm_num [hysteresisRun, hysteresisStep])

/-- State used in the C5 counterexample: warm-up finished, empty score
buffer, machine inactive, default sensitivity 0.20. -/
def stC5 : AnalyzeState :=
  { warmup := 6, scoreBuf := [], lastFire := 0, sustain := 0, active := false,
    hold := 0, boxEma := none, recentActivations := [], recentScores := [],
    prevActive := false, sensitivity := 0.20, detectCount := 0 }

/-- Frame tick used in the C5 counterexample: raw saliency score
`saliencyScore 100 1 1 = 80/153`, alerts off, auto-tune off. -/
def inpC5 : FrameInput :=
  { diff := 100, w := 1, h := 1, now := 1000, maxBlockSum := 0, maxBlockX := 0,
    maxBlockY := 0, ovW := 0, ovH := 0, alertsEnabled := false,
    hasCallback := false, autoTune := false }

/-- Claim C5 (counterexample): the frame-diff path and the embedding path push
into one and the same rolling buffer.  After one saliency tick and one
embedding `onScore` update with raw embedding score 0, the buffer read by the
embedding path contains the saliency score, and the smoothed average computed
for the embedding score 0 is 40/153 rather than 0 — refuting "scores from one
source never enter the other source's buffer or influence its smoothed
average". -/
theorem saliency_score_in_embedding_buffer :
    (onScoreStep (analyzeStep stC5 inpC5).1 0 2000 false false).1.scoreBuf
        = [saliencyScore 100 1 1, 0]
    ∧ bufAvg ((onScoreStep (analyzeStep stC5 inpC5).1 0 2000
        false false).1.scoreBuf) ≠ 0 := by
  constructor <;>
    norm_num [analyzeStep, onScoreStep, stC5, inpC5, saliencyScore, pushCap8,
      bufAvg, hysteresisStep, autoTuneStep, boxEmaUpdate]

/-- Claim C5 (amended): a single shared rolling buffer of capacity 8 holds the
most recent raw scores of both sources: past warm-up, each path appends its
raw score via the same buffer update, which keeps at most 8 entries, appends
to the back when below capacity and evicts the oldest (front) entry when at
capacity; the smoothed score is the arithmetic mean of that shared buffer. -/
theorem shared_rolling_buffer_capacity :
    (∀ (st : AnalyzeState) (inp : FrameInput), 6 ≤ st.warmup →
      (analyzeStep st inp).1.scoreBuf
        = pushCap8 st.scoreBuf (saliencyScore inp.diff inp.w inp.h))
    ∧ (∀ (st : AnalyzeState) (score : ℚ) (now : ℤ) (a hcb : Bool),
        6 ≤ st.warmup →
        (onScoreStep st score now a hcb).1.scoreBuf
          = pushCap8 st.scoreBuf score)
    ∧ (∀ (buf : List ℚ) (s : ℚ), buf.length ≤ 8 →
        (pushCap8 buf s).length ≤ 8)
    ∧ (∀ (buf : List ℚ) (s : ℚ), buf.length < 8 →
        pushCap8 buf s = buf ++ [s])
    ∧ (∀ (buf : List ℚ) (s : ℚ), buf.length = 8 →
        pushCap8 buf s = buf.tail ++ [s]) := by
  refine ⟨?_, ?_, ?_, ?_, ?_⟩
  · intro st inp hw
    have hw' : ¬ st.warmup < 6 := by omega
    simp only [analyzeStep, if_neg hw']
    split_ifs <;> rfl
  · intro st score now a hcb hw
    have hw' : ¬ st.warmup < 6 := by omega
    simp only [onScoreStep, if_neg hw']
    split_ifs <;> rfl
  · intro buf s h
    simp only [pushCap8]
    split_ifs with h1 <;> simp_all
  · intro buf s h
    simp only [pushCap8]
    rw [if_neg (by simp; omega)]
  · intro buf s h
    simp only [pushCap8]
    rw [if_pos (by simp [h])]
    cases buf with
    | nil => simp at h
    | cons x l => simp

/-- Witness for C5: pushing onto a buffer below capacity appends at the
back. -/
theorem shared_rolling_buffer_capacity_witness :
    pushCap8 [(1 : ℚ)] 2 = [(1 : ℚ)] ++ [2] :=
  shared_rolling_buffer_capacity.2.2.2.1 [(1 : ℚ)] 2 (by norm_num)

/-- Claim C6: on an auto-tune tick, the controller keeps exactly the
activation-edge timestamps at most 10 s old; writes the entry threshold
`entry' = clamp(entry - (count / 10 - 0.2) * 0.0025, 0.15, 0.6)` when
`|entry' - entry| > 0.0005` and leaves it unchanged otherwise; and the
analysis tick's resulting sensitivity (past warm-up, adaptive on) is exactly
this controller output applied to the tick's state. -/
theorem adaptive_threshold_controller (sens : ℚ) (recAct : List ℤ) (now : ℤ) :
    (∀ t : ℤ, t ∈ (autoTuneStep sens recAct now).2 ↔
        t ∈ recAct ∧ now - t ≤ 10000)
    ∧ (0.0005 < |max 0.15 (min 0.6 (sens
          - (((autoTuneStep sens recAct now).2.length : ℚ) / 10 - 0.2)
            * 0.0025)) - sens| →
        (autoTuneStep sens recAct now).1
          = max 0.15 (min 0.6 (sens
              - (((autoTuneStep sens recAct now).2.length : ℚ) / 10 - 0.2)
                * 0.0025)))
    ∧ (|max 0.15 (min 0.6 (sens
          - (((autoTuneStep sens recAct now).2.length : ℚ) / 10 - 0.2)
            * 0.0025)) - sens| ≤ 0.0005 →
        (autoTuneStep sens recAct now).1 = sens)
    ∧ (∀ st : AnalyzeState, ∀ inp : FrameInput, 6 ≤ st.warmup →
        inp.autoTune = true →
        (analyzeStep st inp).1.sensitivity
          = (autoTuneStep st.sensitivity st.recentActivations inp.now).1) := by
  refine ⟨?_, ?_, ?_, ?_⟩
  · intro t
    simp only [autoTuneStep, List.mem_filter, decide_eq_true_eq]
  · intro h
    simp only [autoTuneStep] at h ⊢
    rw [if_pos h]
  · intro h
    simp only [autoTuneStep] at h ⊢
    rw [if_neg (by exact not_lt.mpr h)]
  · intro st inp hw ha
    have hw' : ¬ st.warmup < 6 := by omega
    simp only [analyzeStep, if_neg hw', ha, if_pos]
    split_ifs <;> rfl

/-- Witness for C6: with eight in-window activation edges the measured rate is
0.8 events per second, the proposed entry 0.1985 differs from 0.20 by more
than 0.0005, and the controller applies it. -/
theorem adaptive_threshold_controller_witness :
    (autoTuneStep 0.20 [100, 200, 300, 400, 500, 600, 700, 800] 1000).1
      = max 0.15 (min 0.6 ((0.20 : ℚ)
          - (((autoTuneStep 0.20 [100, 200, 300, 400, 500, 600, 700, 800]
                1000).2.length : ℚ) / 10 - 0.2) * 0.0025)) :=
  (adaptive_threshold_controller 0.20 [100, 200, 300, 400, 500, 600, 700, 800]
      1000).2.1 (by norm_num [autoTuneStep, abs_of_pos])

/-- Claim C9 (counterexample): the box EMA does not move each coordinate by
exactly `alpha * delta`: the update rounds to whole pixels.  With previous
smoothed x = 0 and observed x = 1, the code yields
`Math.round(0.35 * 1 + 0.65 * 0) = 0`, not `0 + 0.35 * (1 - 0) = 0.35`. -/
theorem box_ema_update_is_rounded :
    (boxEmaUpdate (some ⟨0, 0, 0, 0⟩) 1 1 1 1).x = 0
    ∧ ((boxEmaUpdate (some ⟨0, 0, 0, 0⟩) 1 1 1 1).x : ℚ)
        ≠ (0 : ℚ) + 0.35 * ((1 : ℚ) - 0) := by
  have hx : (boxEmaUpdate (some ⟨0, 0, 0, 0⟩) 1 1 1 1).x = 0 := by
    simp [boxEmaUpdate]
    norm_num [round_eq]
  refine ⟨hx, ?_⟩
  rw [hx]
  norm_num

/-- Claim C9 (amended): the first max-saliency box observed while active seeds
the smoothed box directly with zero smoothing lag; every subsequent
observation while active moves each coordinate by `alpha * delta` with
`alpha = 0.35`, rounded to the nearest integer pixel
(`new = round(prev + 0.35 * (observed - prev))`); on a tick whose resulting
activation is false the box is not updated; and while active with a
max-saliency block the pipeline applies exactly this update to the
overlay-space converted block coordinates. -/
theorem box_ema_seed_and_rounded_update :
    (∀ rx ry rw rh : ℤ, boxEmaUpdate none rx ry rw rh = ⟨rx, ry, rw, rh⟩)
    ∧ (∀ (p : Box) (rx ry rw rh : ℤ),
        boxEmaUpdate (some p) rx ry rw rh =
          ⟨round ((p.x : ℚ) + 0.35 * ((rx : ℚ) - (p.x : ℚ))),
           round ((p.y : ℚ) + 0.35 * ((ry : ℚ) - (p.y : ℚ))),
           round ((p.w : ℚ) + 0.35 * ((rw : ℚ) - (p.w : ℚ))),
           round ((p.h : ℚ) + 0.35 * ((rh : ℚ) - (p.h : ℚ)))⟩)
    ∧ (∀ (st : AnalyzeState) (inp : FrameInput),
        (analyzeStep st inp).1.active = false →
        (analyzeStep st inp).1.boxEma = st.boxEma)
    ∧ (∀ (st : AnalyzeState) (inp : FrameInput), 6 ≤ st.warmup →
        (analyzeStep st inp).1.active = true → 0 < inp.maxBlockSum →
        (analyzeStep st inp).1.boxEma =
          some (boxEmaUpdate st.boxEma
            ⌊(inp.maxBlockX : ℚ) * ((inp.ovW : ℚ) / (inp.w : ℚ))⌋
            ⌊(inp.maxBlockY : ℚ) * ((inp.ovH : ℚ) / (inp.h : ℚ))⌋
            ⌈8 * ((inp.ovW : ℚ) / (inp.w : ℚ))⌉
            ⌈8 * ((inp.ovH : ℚ) / (inp.h : ℚ))⌉)) := by
  refine ⟨fun rx ry rw rh => rfl, ?_, ?_, ?_⟩
  · intro p rx ry rw rh
    simp only [boxEmaUpdate, Box.mk.injEq]
    refine ⟨?_, ?_, ?_, ?_⟩ <;>
      · congr 1
        ring
  · intro st inp h
    simp only [analyzeStep] at h ⊢
    split_ifs at h ⊢ with h1 h2 h3
    · rfl
    all_goals simp_all
  · intro st inp hw h hb
    have hw' : ¬ st.warmup < 6 := by omega
    simp only [analyzeStep, if_neg hw'] at h ⊢
    split_ifs at h ⊢ with h1 h2 <;> simp_all

/-- Witness for C9: a frame tick on the warm-up-finished initial state leaves
the machine inactive, so the box EMA is untouched. -/
theorem box_ema_seed_and_rounded_update_witness :
    (analyzeStep stC5 inpC5).1.boxEma = stC5.boxEma :=
  box_ema_seed_and_rounded_update.2.2.1 stC5 inpC5
    (by norm_num [analyzeStep, stC5, inpC5, saliencyScore, pushCap8, bufAvg,
      hysteresisStep, autoTuneStep, boxEmaUpdate])

/-- Helper: a frame-diff tick that publishes a detection happened more than
5000 ms after `lastFireRef` and sets `lastFireRef` to the tick's time. -/
lemma analyzeStep_fire_cooldown (st : AnalyzeState) (inp : FrameInput)
    (h : (analyzeStep st inp).2 = true) :
    5000 < inp.now - st.lastFire ∧ (analyzeStep st inp).1.lastFire = inp.now := by
  by_cases hw : st.warmup < 6
  · simp [analyzeStep, hw] at h
  · simp only [analyzeStep, if_neg hw] at h ⊢
    have hg := of_decide_eq_true h
    rw [h]
    simp only [if_pos rfl]
    exact ⟨hg.2.2.2.2, rfl⟩

/-- Helper: a frame-diff tick without a detection leaves `lastFireRef`
unchanged. -/
lemma analyzeStep_nofire_lastFire (st : AnalyzeState) (inp : FrameInput)
    (h : (analyzeStep st inp).2 = false) :
    (analyzeStep st inp).1.lastFire = st.lastFire := by
  by_cases hw : st.warmup < 6
  · simp [analyzeStep, hw]
  · simp only [analyzeStep, if_neg hw] at h ⊢
    rw [h]
    simp

/-- Helper: an embedding callback that publishes a detection happened more
than 8000 ms after `lastFireRef` and sets `lastFireRef` to its time. -/
lemma onScoreStep_fire_cooldown (st : AnalyzeState) (score : ℚ) (now : ℤ)
    (a hcb : Bool) (h : (onScoreStep st score now a hcb).2 = true) :
    8000 < now - st.lastFire
    ∧ (onScoreStep st score now a hcb).1.lastFire = now := by
  by_cases hw : st.warmup < 6
  · simp [onScoreStep, hw] at h
  · simp only [onScoreStep, if_neg hw] at h ⊢
    have hg := of_decide_eq_true h
    rw [h]
    simp only [if_pos rfl]
    exact ⟨hg.2.2.2, rfl⟩

/-- Helper: an embedding callback without a detection leaves `lastFireRef`
unchanged. -/
lemma onScoreStep_nofire_lastFire (st : AnalyzeState) (score : ℚ) (now : ℤ)
    (a hcb : Bool) (h : (onScoreStep st score now a hcb).2 = false) :
    (onScoreStep st score now a hcb).1.lastFire = st.lastFire := by
  by_cases hw : st.warmup < 6
  · simp [onScoreStep, hw]
  · simp only [onScoreStep, if_neg hw] at h ⊢
    rw [h]
    simp

/-- Helper: both cooldown lengths are positive. -/
lemma fireCooldown_pos (b : Bool) : 0 < fireCooldown b := by
  cases b <;> norm_num [fireCooldown]

/-- Helper: a firing event of either path exceeded its cooldown against the
shared `lastFireRef` and updated it to the event time. -/
lemma pipeStep_fire (st : AnalyzeState) (e : PipeEvent)
    (h : (pipeStep st e).2 = true) :
    fireCooldown e.isFrameDiff < e.time - st.lastFire
    ∧ (pipeStep st e).1.lastFire = e.time := by
  cases e with
  | frame inp =>
    have := analyzeStep_fire_cooldown st inp (by simpa [pipeStep] using h)
    simpa [pipeStep, PipeEvent.isFrameDiff, PipeEvent.time, fireCooldown]
      using this
  | embed s now a hcb =>
    have := onScoreStep_fire_cooldown st s now a hcb
      (by simpa [pipeStep] using h)
    simpa [pipeStep, PipeEvent.isFrameDiff, PipeEvent.time, fireCooldown]
      using this

/-- Helper: a non-firing event leaves the shared `lastFireRef` unchanged. -/
lemma pipeStep_nofire (st : AnalyzeState) (e : PipeEvent)
    (h : (pipeStep st e).2 = false) :
    (pipeStep st e).1.lastFire = st.lastFire := by
  cases e with
  | frame inp =>
    simpa [pipeStep] using
      analyzeStep_nofire_lastFire st inp (by simpa [pipeStep] using h)
  | embed s now a hcb =>
    simpa [pipeStep] using
      onScoreStep_nofire_lastFire st s now a hcb (by simpa [pipeStep] using h)

/-- Helper: along any event sequence, every published detection clears its
path's cooldown measured from the run's starting `lastFireRef`, and the fire
list is pairwise separated by the later event's cooldown. -/
lemma runPipe_gap (es : List PipeEvent) : ∀ st : AnalyzeState,
    (∀ f ∈ (runPipe st es).2, fireCooldown f.1 < f.2 - st.lastFire)
    ∧ List.Pairwise (fun f g : Bool × ℤ => fireCooldown g.1 < g.2 - f.2)
        (runPipe st es).2 := by
  induction es with
  | nil => intro st; simp [runPipe]
  | cons e es ih =>
    intro st
    have hrw : runPipe st (e :: es)
        = ((runPipe (pipeStep st e).1 es).1,
           (if (pipeStep st e).2 = true then [(e.isFrameDiff, e.time)] else [])
             ++ (runPipe (pipeStep st e).1 es).2) := rfl
    rw [hrw]
    obtain ⟨ih1, ih2⟩ := ih (pipeStep st e).1
    by_cases hf : (pipeStep st e).2 = true
    · obtain ⟨hgap, hlf⟩ := pipeStep_fire st e hf
      rw [if_pos hf]
      rw [List.singleton_append]
      constructor
      · intro f hfm
        rcases List.mem_cons.mp hfm with h1 | h2
        · rw [h1]
          exact hgap
        · have hfgap := ih1 f h2
          rw [hlf] at hfgap
          have hpos := fireCooldown_pos e.isFrameDiff
          omega
      · refine List.Pairwise.cons ?_ ih2
        intro g hg
        have hggap := ih1 g hg
        rw [hlf] at hggap
        exact hggap
    · have hf' : (pipeStep st e).2 = false := by
        cases hx : (pipeStep st e).2
        · rfl
        · exact absurd hx hf
      have hlf := pipeStep_nofire st e hf'
      rw [if_neg hf, List.nil_append]
      rw [hlf] at ih1
      exact ⟨ih1, ih2⟩

/-- State used in the C1 counterexample: warm-up finished, active with
sustain 5 and hold 8, cooldown timestamp 0, sensitivity 0.20. -/
def stC1 : AnalyzeState :=
  { warmup := 6, scoreBuf := [], lastFire := 0, sustain := 5, active := true,
    hold := 8, boxEma := none, recentActivations := [], recentScores := [],
    prevActive := true, sensitivity := 0.20, detectCount := 0 }

/-- Frame tick used in the C1 counterexample: saturated saliency score 1 at
time 6000 ms with alerts on, so the frame-diff detection fires. -/
def inpC1 : FrameInput :=
  { diff := 765, w := 1, h := 1, now := 6000, maxBlockSum := 0, maxBlockX := 0,
    maxBlockY := 0, ovW := 0, ovH := 0, alertsEnabled := true,
    hasCallback := true, autoTune := false }

/-- Claim C1 (counterexample): the two paths do not keep independent last-fire
timestamps — they share `lastFireRef`.  From the same starting state, the
embedding callback at 13000 ms (smoothed score above threshold, no embedding
detection ever published before) is suppressed when a frame-diff detection
fired at 6000 ms (13000 − 6000 = 7000 ≤ 8000), yet it fires when the
frame-diff event is absent.  This refutes "suppression on one path does not
depend on the other path's last fire". -/
theorem embedding_suppressed_by_frame_fire :
    (runPipe stC1 [.frame inpC1, .embed 1 13000 true true]).2 = [(true, 6000)]
    ∧ (runPipe stC1 [.embed 1 13000 true true]).2 = [(false, 13000)] := by
  constructor <;>
    norm_num [runPipe, pipeStep, analyzeStep, onScoreStep, stC1, inpC1,
      saliencyScore, pushCap8, bufAvg, hysteresisStep, autoTuneStep,
      boxEmaUpdate, PipeEvent.isFrameDiff, PipeEvent.time]

/-- Claim C1 (amended): detection rate limiting uses a single last-fire
timestamp shared by both paths: a frame-diff detection requires more than 5 s
since the last detection from either path, an embedding detection more than
8 s.  Consequently, in every run, each published detection is separated from
every earlier detection (of either path) by more than its own path's
cooldown; in particular any two detections whose later member is frame-diff —
hence every pair of frame-diff detections — differ by more than 5 s. -/
theorem shared_cooldown_pairwise_gaps (st : AnalyzeState)
    (es : List PipeEvent) :
    List.Pairwise (fun f g : Bool × ℤ => fireCooldown g.1 < g.2 - f.2)
      (runPipe st es).2
    ∧ List.Pairwise (fun f g : Bool × ℤ => g.1 = true → 5000 < g.2 - f.2)
      (runPipe st es).2 := by
  refine ⟨(runPipe_gap es st).2, List.Pairwise.imp ?_ (runPipe_gap es st).2⟩
  intro f g h hg
  rw [hg] at h
  simpa [fireCooldown] using h

/-- State used in the C10 in-pipeline instance: warm-up finished, machine
inactive, sensitivity 0.20, cooldown timestamp 0. -/
def stC10 : AnalyzeState :=
  { warmup := 6, scoreBuf := [], lastFire := 0, sustain := 0, active := false,
    hold := 0, boxEma := none, recentActivations := [], recentScores := [],
    prevActive := false, sensitivity := 0.20, detectCount := 0 }

/-- Claim C10: a frame-diff detection fires only when the updated active flag
is true and the smoothed score strictly exceeds `sensitivity + 0.005`; an
embedding detection fires exactly when alerts are on, the callback exists, the
smoothed score strictly exceeds `sensitivity + 0.01` and the 8 s cooldown has
elapsed — with no condition on the activation state machine; concretely, the
embedding path fires from a state whose active flag is false. -/
theorem detection_guards_activation :
    (∀ (st : AnalyzeState) (inp : FrameInput), (analyzeStep st inp).2 = true →
      (analyzeStep st inp).1.active = true
      ∧ st.sensitivity + 0.005
          < bufAvg (pushCap8 st.scoreBuf (saliencyScore inp.diff inp.w inp.h)))
    ∧ (∀ (st : AnalyzeState) (score : ℚ) (now : ℤ) (a hcb : Bool),
        6 ≤ st.warmup →
        ((onScoreStep st score now a hcb).2 = true ↔
          (a = true ∧ hcb = true
            ∧ st.sensitivity + 0.01 < bufAvg (pushCap8 st.scoreBuf score)
            ∧ 8000 < now - st.lastFire)))
    ∧ (onScoreStep stC10 1 20000 true true).2 = true
    ∧ stC10.active = false := by
  refine ⟨?_, ?_, ?_, rfl⟩
  · intro st inp h
    by_cases hw : st.warmup < 6
    · simp [analyzeStep, hw] at h
    · simp only [analyzeStep, if_neg hw] at h ⊢
      have hg := of_decide_eq_true h
      rw [h]
      simp only [if_pos rfl]
      exact ⟨hg.2.2.1, hg.2.2.2.1⟩
  · intro st score now a hcb hw
    have hw' : ¬ st.warmup < 6 := by omega
    simp only [onScoreStep, if_neg hw']
    exact ⟨fun h => of_decide_eq_true h, fun h => decide_eq_true h⟩
  · norm_num [onScoreStep, stC10, pushCap8, bufAvg]

/-- Witness for C10: the firing frame tick of `stC1`/`inpC1` has its active
flag true and its smoothed score above the margin. -/
theorem detection_guards_activation_witness :
    (analyzeStep stC1 inpC1).1.active = true
    ∧ stC1.sensitivity + 0.005
        < bufAvg (pushCap8 stC1.scoreBuf
            (saliencyScore inpC1.diff inpC1.w inpC1.h)) :=
  detection_guards_activation.1 stC1 inpC1
    (by norm_num [analyzeStep, stC1, inpC1, saliencyScore, pushCap8, bufAvg,
      hysteresisStep, autoTuneStep, boxEmaUpdate])

end IRIS
